import Mathlib

/-!
Verification of the txrx USRP transceiver suite (shallow embedding).

Each definition below embeds one function (or one loop) of the C++ sources,
file and line references given in the doc comments.  Machine values:
`size_t` / `std::uintmax_t` are embedded as `Nat` (no overflow is reachable in
any property below), `double` parameters whose values are never inspected by
the embedded control flow (gains, rates, frequencies, delays) are carried as
`Rat`, and sample payloads (`std::complex<float>`) are carried as abstract `Int`
tokens: no property below inspects a sample value, only counts and layout.
Hardware and file-system effects are passed in explicitly: a `FileEnv` for
`std::filesystem`, and oracle lists for the results of the UHD
`send` / `recv` / sensor calls.
-/

namespace TxRx

/-- A sample as stored in the fc32 streams; the concrete complex value is
never inspected by the verified control flow, so it is carried abstractly. -/
abbrev Sample := Int

/-- Value of `sizeof(complexf)` = `sizeof(std::complex<float>)`: 8 bytes. -/
def sizeofComplexf : Nat := 8

/-- The `UsrpConfig` struct (usrp_transceiver.h:9-20, duplicated at
txrx_sync.cpp:54-66). -/
structure UsrpConfig where
  clock_source : String
  time_source : String
  tx_channels : List Nat
  rx_channels : List Nat
  spb : Nat
  delay : Rat
  nsamps : Nat
  tx_rates : List Rat
  rx_rates : List Rat
  tx_files : List String
  rx_files : List String
  tx_freqs : List Rat
  rx_freqs : List Rat
  tx_gains : List Rat
  rx_gains : List Rat
  tx_ants : List String
  rx_ants : List String
  deriving Repr, DecidableEq

/-- The `std::filesystem` surface the validators consume:
`fs::exists` and `fs::file_size` (byte size). -/
structure FileEnv where
  exists_file : String → Bool
  file_size : String → Nat

/-- Embedding of `std::ranges::adjacent_find(xs, std::not_equal_to) != xs.end()`:
true iff some adjacent pair of the list differs (used on the five list
lengths and on the file sizes in both validators). -/
def adjacentNeFound : List Nat → Bool
  | a :: b :: t => a != b || adjacentNeFound (b :: t)
  | _ => false

/-- C++ `int` → `bool` conversion: any nonzero integer converts to `true`.
`EXIT_FAILURE` is a nonzero `int` (1 on this platform). -/
def intAsBool (i : Int) : Bool := i != 0

/-- The `EXIT_FAILURE` constant. -/
def EXIT_FAILURE_int : Int := 1

/-- Embedding of `UsrpTransceiver::ValidateConfiguration` (usrp_transceiver.cpp:28-106).
`total_tx_channels` / `total_rx_channels` stand for
`usrp->get_tx_num_channels()` / `get_rx_num_channels()`.
Note usrp_transceiver.cpp:54-58: the RX channel-range `any_of` only logs an
error; unlike the TX check at lines 47-52 it has no `return false`, so its
result is discarded and control falls through. -/
def ValidateConfiguration (env : FileEnv) (total_tx_channels total_rx_channels : Nat)
    (config : UsrpConfig) : Bool :=
  if config.tx_channels.any (fun ch => decide (total_tx_channels ≤ ch)) then false
  else
    let _rx_unsupported := config.rx_channels.any (fun ch => decide (total_rx_channels ≤ ch))
    let tx_sizes := [config.tx_channels.length, config.tx_files.length,
                     config.tx_ants.length, config.tx_gains.length, config.tx_freqs.length]
    if adjacentNeFound tx_sizes then false
    else
      let rx_sizes := [config.rx_channels.length, config.rx_files.length,
                       config.rx_ants.length, config.rx_gains.length, config.rx_freqs.length]
      if adjacentNeFound rx_sizes then false
      else if ! config.tx_files.all env.exists_file then false
      else
        let sizes := config.tx_files.map env.file_size
        if adjacentNeFound sizes then false
        else true

/-- Embedding of `ValidateUsrpConfiguration` (txrx_sync.cpp:298-376), the near-duplicate
free-function validator.  Two deviations from the member version are kept
faithfully: (1) txrx_sync.cpp:324-328, the RX channel-range check only logs
(no `return false`); (2) txrx_sync.cpp:359, the missing-TX-file branch is
`return EXIT_FAILURE;` inside a `bool` function, which converts the nonzero
`int` to `true`. -/
def ValidateUsrpConfiguration (env : FileEnv) (total_tx_channels total_rx_channels : Nat)
    (config : UsrpConfig) : Bool :=
  if config.tx_channels.any (fun ch => decide (total_tx_channels ≤ ch)) then false
  else
    let _rx_unsupported := config.rx_channels.any (fun ch => decide (total_rx_channels ≤ ch))
    let tx_sizes := [config.tx_channels.length, config.tx_files.length,
                     config.tx_ants.length, config.tx_gains.length, config.tx_freqs.length]
    if adjacentNeFound tx_sizes then false
    else
      let rx_sizes := [config.rx_channels.length, config.rx_files.length,
                       config.rx_ants.length, config.rx_gains.length, config.rx_freqs.length]
      if adjacentNeFound rx_sizes then false
      else if ! config.tx_files.all env.exists_file then intAsBool EXIT_FAILURE_int
      else
        let sizes := config.tx_files.map env.file_size
        if adjacentNeFound sizes then false
        else true

/-- A configuration with all five TX lists and all five RX lists of length 1,
channels in range for a 1-TX/1-RX device, whose single TX input file is
missing in `fileEnvNone`. -/
def configC1 : UsrpConfig :=
  { clock_source := "internal", time_source := "internal",
    tx_channels := [0], rx_channels := [0],
    spb := 2500, delay := 1, nsamps := 1000,
    tx_rates := [1000000], rx_rates := [1000000],
    tx_files := ["tx_data_fc32.bin"], rx_files := ["rx_data_fc32.bin"],
    tx_freqs := [915000000], rx_freqs := [915000000],
    tx_gains := [10], rx_gains := [10],
    tx_ants := ["TX/RX"], rx_ants := ["RX2"] }

/-- A file system in which no file exists. -/
def fileEnvNone : FileEnv := { exists_file := fun _ => false, file_size := fun _ => 0 }

/-- A file system in which every file exists with byte size 800. -/
def fileEnvAll800 : FileEnv := { exists_file := fun _ => true, file_size := fun _ => 800 }

/-! ### Device Coordinator: the PPS wait (usrp_transceiver.cpp:161-164, txrx_sync.cpp:442-445)

```
const uhd::time_spec_t last_pps_time = usrp->get_time_last_pps();
while (last_pps_time == usrp->get_time_last_pps()) {
    std::this_thread::sleep_for(std::chrono::milliseconds(100));
}
```

The device is abstracted as `pps : Nat → Int`, the value `get_time_last_pps()`
returns at its k-th call (k = 0 is the initial read bound to `last_pps_time`).
The loop has no iteration bound and no timeout in the source, so it is run on
fuel: `none` means the loop was still spinning after `fuel` polls. -/

/-- The polling loop body: poll index `k` is compared against the initial
read; on equality the loop sleeps 100 ms and polls again. Returns the poll
index at which a new PPS edge was observed. -/
def ppsWaitAux (pps : Nat → Int) (last_pps_time : Int) (k : Nat) : Nat → Option Nat
  | 0 => none
  | fuel + 1 =>
    if pps k == last_pps_time then ppsWaitAux pps last_pps_time (k + 1) fuel
    else some k

/-- The whole PPS wait: initial read at poll 0, guard polls from index 1. -/
def ppsWait (pps : Nat → Int) (fuel : Nat) : Option Nat :=
  ppsWaitAux pps (pps 0) 1 fuel

/-- The PPS wait never finishes, however much fuel it is given. -/
def ppsWaitDiverges (pps : Nat → Int) : Prop :=
  ∀ fuel, ppsWait pps fuel = none

/-- A device whose `get_time_last_pps` result never changes (e.g. a device
with no PPS source connected). -/
def constPps : Nat → Int := fun _ => 0

/-- A device that reports a new PPS edge from the first guard poll on. -/
def ppsEdgeAt1 : Nat → Int := fun n => if n = 0 then 0 else 1

/-! ### TX pipeline, file-backed worker
(`transmit_from_file_worker`, workers.cpp:21-132 and its duplicate
txrx_sync.cpp:80-201; the two differ only in logging and in the duplicate
also setting `timeout = 0.1` after a successful send, which no claim
concerns).

Channel input files are carried as the unread tail of their sample
sequences (`std::ifstream` read cursors); `send` results come from the
oracle argument `send_ret`, capped at the requested count as the UHD
`tx_streamer::send` contract guarantees.  Sample payload values are carried
but never inspected. -/

/-- Loop state of `transmit_from_file_worker`. -/
structure TxState where
  files : List (List Sample)
  buffs : List (List Sample)
  buf_valid_samps : Nat
  buf_sent_samps : Nat
  eof : Bool
  num_samps_transmitted : Nat
  deriving Repr, DecidableEq

/-- State on entry to the while loop (workers.cpp:33-49): per-channel scratch
chunks of `spb` zero samples, counters zero, `eof` false. -/
def txInit (spb : Nat) (files : List (List Sample)) : TxState :=
  { files := files, buffs := files.map (fun _ => List.replicate spb 0),
    buf_valid_samps := 0, buf_sent_samps := 0, eof := false,
    num_samps_transmitted := 0 }

/-- The per-channel fold of workers.cpp:71-77: channel 0 initialises
`buf_valid_samps` to its read count, every later channel takes the minimum;
with no channels the loop body never runs and the value stays at the 0 it
was reset to (workers.cpp:59). -/
def refillValid : List Nat → Nat
  | [] => 0
  | r :: rs => rs.foldl Nat.min r

/-- Result of the refill block (workers.cpp:56-83). -/
structure TxRefill where
  files : List (List Sample)
  buffs : List (List Sample)
  buf_valid_samps : Nat
  deriving Repr, DecidableEq

/-- The refill block: each channel's `ifstream::read` takes up to `spb`
samples from its file (gcount / sizeof(complexf) samples), overwriting the
front of that channel's chunk; `buf_valid_samps` is folded as in
`refillValid`. -/
def txRefill (spb : Nat) (files buffs : List (List Sample)) : TxRefill :=
  let chunks := files.map (fun f => f.take spb)
  let reads := chunks.map List.length
  { files := files.map (fun f => f.drop spb),
    buffs := List.zipWith (fun chunk old => chunk ++ old.drop chunk.length) chunks buffs,
    buf_valid_samps := refillValid reads }

/-- One iteration of the transmit while loop either continues or leaves the
loop (`break` at workers.cpp:87 or 117, or the guard observing the stop
flag); after the loop the end-of-burst marker is sent (workers.cpp:122-123). -/
inductive TxIter
  | cont (s : TxState)
  | done (s : TxState)
  deriving Repr, DecidableEq

/-- The state carried by either outcome of an iteration. -/
def txIterState : TxIter → TxState
  | .cont s => s
  | .done s => s

/-- One full iteration of the while loop (workers.cpp:53-119).  `stop` is the
value the guard reads from `stop_signal_called`; `send_ret` is the sample
count the `tx_stream->send` call returns (at most the requested count, hence
the `min`). -/
def txIterate (spb : Nat) (stop : Bool) (send_ret : Nat) (s : TxState) : TxIter :=
  if stop then .done s
  else
    let s :=
      if s.buf_sent_samps == s.buf_valid_samps && ! s.eof then
        let r := txRefill spb s.files s.buffs
        { s with files := r.files, buffs := r.buffs,
                 buf_valid_samps := r.buf_valid_samps, buf_sent_samps := 0,
                 eof := r.buf_valid_samps == 0 }
      else s
    if s.buf_valid_samps == 0 && s.eof then .done s
    else
      let samps_to_send := s.buf_valid_samps - s.buf_sent_samps
      let samps_sent := min send_ret samps_to_send
      if samps_sent == 0 then .cont s
      else
        let s := { s with
                   num_samps_transmitted := s.num_samps_transmitted + samps_sent,
                   buf_sent_samps := s.buf_sent_samps + samps_sent }
        if s.eof && s.buf_sent_samps == s.buf_valid_samps then .done s
        else .cont s

/-! ### RX pipeline, buffer-backed
(`UsrpTransceiver::ReceiveToBuffer`, usrp_transceiver.cpp:315-387; the
file-backed `receive_to_file_worker`, workers.cpp:148-224, runs the same
loop, writing each chunk to files instead of buffer offsets).

The hardware is abstracted by two oracle lists: `stops`, the values the loop
guard reads from `stop_signal_called`, and `events`, the outcomes of the
successive `rx_stream->recv` calls.  Sample payload values are not tracked
(no claim concerns them); the received count and the final
`buff.resize(num_samps_received)` are. -/

/-- Loop state of the reception loop. -/
structure RxState where
  first_packet : Bool
  timeout : Rat
  num_samps_received : Nat
  deriving Repr, DecidableEq

/-- usrp_transceiver.cpp:331-332,345: `first_packet = true`, `timeout = 5`,
`num_samps_received = 0`. -/
def rxInit : RxState :=
  { first_packet := true, timeout := 5, num_samps_received := 0 }

/-- Outcome of one `recv` call, as classified by `md.error_code`. -/
inductive RxEvent
  | tmo
  | ovf
  | fatal
  | ok (n : Nat)
  deriving Repr, DecidableEq

/-- Result of one loop iteration: continue, or the `throw std::runtime_error`
of usrp_transceiver.cpp:373. -/
inductive RxStep
  | cont (s : RxState)
  | threw
  deriving Repr, DecidableEq

/-- One iteration body (usrp_transceiver.cpp:349-376).  Note
usrp_transceiver.cpp:357-360: the timeout is shortened to 0.1 s whenever
`first_packet` is still set, BEFORE `md.error_code` is examined, so the
first `recv` call shortens it whether it succeeded, timed out, overflowed
or failed. -/
def rxIterate (s : RxState) (ev : RxEvent) : RxStep :=
  let s := if s.first_packet then { s with timeout := 1/10, first_packet := false } else s
  match ev with
  | .tmo => .cont s
  | .ovf => .cont s
  | .fatal => .threw
  | .ok n => .cont { s with num_samps_received := s.num_samps_received + n }

/-- How the reception loop ended. -/
inductive RxOutcome
  | finished (received : Nat)
  | threw
  deriving Repr, DecidableEq

/-- The reception while loop (usrp_transceiver.cpp:348-377).  The guard
`not stop_signal_called && (num_samps_received < nsamps)` reads one entry of
`stops` per evaluation; each executed body consumes one `recv` event.
`none` means the oracles ran out before the loop ended. -/
def rxLoop (nsamps : Nat) (stops : List Bool) (events : List RxEvent) (s : RxState) :
    Option RxOutcome :=
  match stops with
  | [] => none
  | stop :: srest =>
    if stop || ! decide (s.num_samps_received < nsamps) then
      some (.finished s.num_samps_received)
    else
      match events with
      | [] => none
      | ev :: erest =>
        match rxIterate s ev with
        | .threw => some .threw
        | .cont s2 => rxLoop nsamps srest erest s2

/-- The number of samples one `recv` outcome contributed to
`num_samps_received`. -/
def okDelta : RxEvent → Nat
  | .ok n => n
  | _ => 0

/-- Semantics of `std::vector::resize(n)`: truncate to `n` elements, or pad with
value-initialised elements up to `n`. -/
def cppResize (n : Nat) (b : List Sample) : List Sample :=
  b.take n ++ List.replicate (n - b.length) 0

/-- Embedding of `UsrpTransceiver::ReceiveToBuffer`: allocate one buffer of
`_config.nsamps` samples per channel (usrp_transceiver.cpp:324), run the
reception loop, then resize every buffer to the received count
(usrp_transceiver.cpp:382-384) and return them.  Payload values are not
tracked, so the buffers carry zero samples; their lengths are exact. -/
def ReceiveToBuffer (num_rx_ch : Nat) (cfg : UsrpConfig) (stops : List Bool)
    (events : List RxEvent) : Option (Except Unit (List (List Sample))) :=
  match rxLoop cfg.nsamps stops events rxInit with
  | none => none
  | some .threw => some (.error ())
  | some (.finished r) =>
    some (.ok ((List.replicate num_rx_ch (List.replicate cfg.nsamps (0 : Sample))).map
      (cppResize r)))

/-- Total number of samples the hardware delivered in a list of `recv`
outcomes.  A `STREAM_MODE_NUM_SAMPS_AND_DONE` command for `nsamps` samples
(usrp_transceiver.cpp:333-334) makes the hardware deliver at most `nsamps`
in total, i.e. `okSum events ≤ nsamps`. -/
def okSum : List RxEvent → Nat
  | [] => 0
  | .ok n :: t => n + okSum t
  | _ :: t => okSum t

/-- txrx_samples_from_to_file.cpp:701: the near-duplicate CLI derives the RX
sample target from the first TX file's byte size
(`sizes.front() / sizeof(complexf)`) instead of using `nsamps`. -/
def numsToRecvFromTxFile (first_tx_file_size : Nat) : Nat :=
  first_tx_file_size / sizeofComplexf

/-- Variant of `configC1` with the `nsamps = 0` sentinel ("0 means until TX complete",
usrp_transceiver.h:14). -/
def configNsamps0 : UsrpConfig := { configC1 with nsamps := 0 }

/-- Variant of `configC1` with a concrete RX target of 3 samples. -/
def configNsamps3 : UsrpConfig := { configC1 with nsamps := 3 }

/-! ### Control-plane server (server.cpp:68-212)

The request loop is embedded per request.  Shared memory is a list of named
segments; `content` is the sample view of the mapped region
(`content.length = byte_size / sizeof(complexf)`, the dangling remainder
bytes of a region whose size is not a multiple of 8 belong to no sample).
The `ApplyConfiguration` hardware effects and the two concurrently run
pipelines (server.cpp:158-163) are abstracted by their joined result: the
`rx_buffs` argument is the value of `rx_future.get()`.  The server's
`ValidateConfiguration(config, false)` call refers to a two-parameter
overload whose definition is not in the sources; the one-parameter
src/usrp_transceiver.cpp validator is used in its place. -/

/-- Response status codes of usrp_protocol.pb.h. -/
inductive StatusCode
  | SUCCESS
  | FAILED
  | ERROR
  | RELEASED
  | STATUS_UNKNOWN
  deriving Repr, DecidableEq

/-- The protobuf `Response` message; unset fields hold protobuf defaults. -/
structure Response where
  status : StatusCode
  msg : String
  rx_shm_name : String
  rx_nsamps_per_ch : Nat
  num_rx_ch : Nat
  deriving Repr, DecidableEq

/-- State of `reply_proto` right after `set_status(STATUS_UNKNOWN)` (server.cpp:108). -/
def defaultResponse : Response :=
  { status := .STATUS_UNKNOWN, msg := "", rx_shm_name := "",
    rx_nsamps_per_ch := 0, num_rx_ch := 0 }

/-- The protobuf command tag. -/
inductive Command
  | EXECUTE
  | RELEASE
  | UNKNOWN_CMD
  deriving Repr, DecidableEq

/-- The decoded request (server.cpp:124-126). -/
structure Request where
  cmd : Command
  config : UsrpConfig
  tx_shm_name : String

/-- A named POSIX shared-memory segment. -/
structure ShmSegment where
  name : String
  byte_size : Nat
  content : List Sample
  deriving Repr, DecidableEq

/-- The set of existing named segments. -/
abbrev ShmState := List ShmSegment

/-- Opening a segment by name (`shared_memory_object(open_only, name, ...)`);
`none` stands for the `interprocess_exception` thrown when it is absent. -/
def shmFind (st : ShmState) (n : String) : Option ShmSegment :=
  st.find? (fun seg => seg.name == n)

/-- Semantics of `boost::interprocess::shared_memory_object::remove(name)`: removes the
segment when present; when absent it merely returns false — it never
throws. -/
def shmRemove (st : ShmState) (n : String) : ShmState :=
  st.filter (fun seg => seg.name != n)

/-- server.cpp:145: samples per channel of the mapped TX input region,
`tx_region.get_size() / (num_tx_ch * sizeof(complexf))` — C++ `size_t`
division truncates; no divisibility check exists. -/
def sampsPerCh (region_size num_tx_ch : Nat) : Nat :=
  region_size / (num_tx_ch * sizeofComplexf)

/-- server.cpp:148-153: split the flat region into per-channel sample
sequences, channel i copying samples `[i*samps_per_ch, (i+1)*samps_per_ch)`. -/
def splitTxRegion (region : List Sample) (num_tx_ch region_size : Nat) :
    List (List Sample) :=
  let samps := sampsPerCh region_size num_tx_ch
  (List.range num_tx_ch).map (fun i => (region.drop (i * samps)).take samps)

/-- server.cpp:166: the fixed output segment name. -/
def rxShmNameConst : String := "usrp_rx_shm"

/-- Handling of one decoded request (server.cpp:123-199).  `total_tx` and
`total_rx` are the device's reported channel counts, `rx_buffs` the joined
RX pipeline result. -/
def handleRequest (env : FileEnv) (total_tx total_rx : Nat) (req : Request)
    (st : ShmState) (rx_buffs : List (List Sample)) : ShmState × Response :=
  match req.cmd with
  | .RELEASE =>
    (shmRemove st rxShmNameConst, { defaultResponse with status := .RELEASED })
  | .UNKNOWN_CMD =>
    (st, { defaultResponse with status := .ERROR, msg := "Unknown command" })
  | .EXECUTE =>
    if ! ValidateConfiguration env total_tx total_rx req.config then
      (st, { defaultResponse with
             status := .FAILED, msg := "Configuration validation failed" })
    else
      match shmFind st req.tx_shm_name with
      | none =>
        -- the open_only constructor throws; caught at server.cpp:195-199
        (st, { defaultResponse with status := .ERROR, msg := "No such file or directory" })
      | some tx_shm =>
        let num_tx_ch := req.config.tx_channels.length
        let _tx_buffs := splitTxRegion tx_shm.content num_tx_ch tx_shm.byte_size
        let st1 := shmRemove st rxShmNameConst
        let num_rx_ch := rx_buffs.length
        let rx_samps_per_ch := (rx_buffs.headD []).length
        let total_rx_bytes := num_rx_ch * rx_samps_per_ch * sizeofComplexf
        let out : ShmSegment :=
          { name := rxShmNameConst, byte_size := total_rx_bytes,
            content := rx_buffs.flatten }
        (out :: st1,
         { defaultResponse with
           status := .SUCCESS, rx_shm_name := rxShmNameConst,
           rx_nsamps_per_ch := rx_samps_per_ch, num_rx_ch := num_rx_ch })

/-- A client-created input segment of 12 bytes: one whole 8-byte sample and
4 dangling bytes (12 is not a multiple of `1 * sizeof(complexf)`). -/
def segC6 : ShmSegment := { name := "client_in", byte_size := 12, content := [7] }

/-- C1: on a configuration whose five TX lists and five RX lists all have
length 1 and channels are in range, but whose TX input file does NOT exist,
the txrx_sync.cpp validator `ValidateUsrpConfiguration` nevertheless returns
`true`: its missing-file branch (txrx_sync.cpp:359) executes
`return EXIT_FAILURE;` in a `bool` function, and the nonzero `int` converts
to `true`.  The sibling `UsrpTransceiver::ValidateConfiguration`
(usrp_transceiver.cpp:85-90) returns `false` on the same input, as the claim
and the validator's own error diagnostic require. -/
theorem C1_missing_file_validation_passes :
    configC1.tx_files.all fileEnvNone.exists_file = false ∧
    ValidateUsrpConfiguration fileEnvNone 1 1 configC1 = true ∧
    ValidateConfiguration fileEnvNone 1 1 configC1 = false :=
  ⟨rfl, rfl, rfl⟩

/-- A configuration identical to `configC1` except that its RX channel index
is 1, out of range for a device reporting only 1 RX channel (indices start
at 0). -/
def configC2 : UsrpConfig :=
  { configC1 with rx_channels := [1] }

/-- C2: on a configuration containing an RX channel index (1) that is ≥ the
hardware's reported RX channel count (1), with every other invariant
satisfied, BOTH validators return `true`: the RX range check
(usrp_transceiver.cpp:54-58, txrx_sync.cpp:324-328) logs
"RX channels are not supported" but, unlike the TX check just above it, is
missing the `return false` statement, so validation falls through and
succeeds. -/
theorem C2_rx_out_of_range_validation_passes :
    configC2.rx_channels.any (fun ch => decide (1 ≤ ch)) = true ∧
    ValidateConfiguration fileEnvAll800 1 1 configC2 = true ∧
    ValidateUsrpConfiguration fileEnvAll800 1 1 configC2 = true :=
  ⟨rfl, rfl, rfl⟩

/-! ### Helper lemmas -/

theorem ppsWaitAux_const_none (c : Int) :
    ∀ (fuel k : Nat), ppsWaitAux (fun _ => c) c k fuel = none
  | 0, _ => rfl
  | fuel + 1, k => by
    simp only [ppsWaitAux, beq_self_eq_true, if_true]
    exact ppsWaitAux_const_none c fuel (k + 1)

theorem ppsWaitAux_terminates :
    ∀ (fuel : Nat) (pps : Nat → Int) (last : Int) (start i : Nat),
      start ≤ i → i < start + fuel → pps i ≠ last →
      ∃ j, start ≤ j ∧ j ≤ i ∧ ppsWaitAux pps last start fuel = some j := by
  intro fuel
  induction fuel with
  | zero => intro pps last start i hsi hif _; omega
  | succ fuel ih =>
    intro pps last start i hsi hif hne
    by_cases hs : pps start = last
    · have hne_start : i ≠ start := fun h => hne (h ▸ hs)
      have h1 : start + 1 ≤ i := by omega
      have h2 : i < (start + 1) + fuel := by omega
      obtain ⟨j, hj1, hj2, hj3⟩ := ih pps last (start + 1) i h1 h2 hne
      refine ⟨j, by omega, hj2, ?_⟩
      simp only [ppsWaitAux, beq_iff_eq, hs, if_true]
      exact hj3
    · refine ⟨start, le_refl start, hsi, ?_⟩
      simp only [ppsWaitAux, beq_iff_eq, hs, if_false]

theorem foldl_min_le (rs : List Nat) :
    ∀ r : Nat, rs.foldl Nat.min r ≤ r ∧ ∀ x ∈ rs, rs.foldl Nat.min r ≤ x := by
  induction rs with
  | nil => intro r; simp
  | cons a t ih =>
    intro r
    refine ⟨?_, ?_⟩
    · calc t.foldl Nat.min (Nat.min r a) ≤ Nat.min r a := (ih _).1
        _ ≤ r := Nat.min_le_left _ _
    · intro x hx
      rcases List.mem_cons.mp hx with h | h
      · subst h
        calc t.foldl Nat.min (Nat.min r x) ≤ Nat.min r x := (ih _).1
          _ ≤ x := Nat.min_le_right _ _
      · exact (ih _).2 x h

theorem foldl_min_mem (rs : List Nat) :
    ∀ r : Nat, rs.foldl Nat.min r = r ∨ rs.foldl Nat.min r ∈ rs := by
  induction rs with
  | nil => intro r; left; rfl
  | cons a t ih =>
    intro r
    rcases ih (Nat.min r a) with h | h
    · rw [List.foldl_cons, h]
      rcases Nat.le_total r a with hra | har
      · left
        have : Nat.min r a = r := by unfold Nat.min; omega
        exact this
      · right
        have : Nat.min r a = a := by unfold Nat.min; omega
        rw [this]
        exact List.mem_cons_self a t
    · right
      rw [List.foldl_cons]
      exact List.mem_cons_of_mem a h

theorem refillValid_spec (reads : List Nat) (hne : reads ≠ []) :
    refillValid reads ∈ reads ∧ ∀ r ∈ reads, refillValid reads ≤ r := by
  match reads with
  | [] => exact absurd rfl hne
  | a :: t =>
    refine ⟨?_, ?_⟩
    · rcases foldl_min_mem t a with h | h
      · rw [show refillValid (a :: t) = t.foldl Nat.min a from rfl, h]
        exact List.mem_cons_self a t
      · rw [show refillValid (a :: t) = t.foldl Nat.min a from rfl]
        exact List.mem_cons_of_mem a h
    · intro r hr
      rcases List.mem_cons.mp hr with h | h
      · subst h; exact (foldl_min_le t r).1
      · exact (foldl_min_le t a).2 r h

theorem cppResize_length (n : Nat) (b : List Sample) : (cppResize n b).length = n := by
  simp [cppResize]
  omega

theorem okSum_cons (ev : RxEvent) (t : List RxEvent) :
    okSum (ev :: t) = okDelta ev + okSum t := by
  cases ev <;> simp [okSum, okDelta]

theorem rxIterate_cont_received (s : RxState) (ev : RxEvent) (s2 : RxState)
    (h : rxIterate s ev = .cont s2) :
    s2.num_samps_received = s.num_samps_received + okDelta ev := by
  cases ev with
  | tmo =>
    simp only [rxIterate] at h
    split at h <;> (cases h; simp [okDelta])
  | ovf =>
    simp only [rxIterate] at h
    split at h <;> (cases h; simp [okDelta])
  | fatal => simp [rxIterate] at h
  | ok n =>
    simp only [rxIterate] at h
    split at h <;> (cases h; simp [okDelta])

theorem rxLoop_received_le (nsamps : Nat) :
    ∀ (stops : List Bool) (events : List RxEvent) (s : RxState) (r : Nat),
      rxLoop nsamps stops events s = some (.finished r) →
      r ≤ s.num_samps_received + okSum events := by
  intro stops
  induction stops with
  | nil => intro events s r h; simp [rxLoop] at h
  | cons stop srest ih =>
    intro events s r h
    simp only [rxLoop] at h
    by_cases hguard : (stop || ! decide (s.num_samps_received < nsamps)) = true
    · rw [if_pos hguard] at h
      have : s.num_samps_received = r := by simpa using h
      omega
    · rw [if_neg hguard] at h
      match events with
      | [] => simp at h
      | ev :: erest =>
        have h2 : (match rxIterate s ev with
            | RxStep.threw => some RxOutcome.threw
            | RxStep.cont s2 => rxLoop nsamps srest erest s2)
              = some (RxOutcome.finished r) := h
        cases hev : rxIterate s ev with
        | threw => rw [hev] at h2; simp at h2
        | cont s2 =>
          rw [hev] at h2
          have hrec := ih erest s2 r h2
          have hs2 := rxIterate_cont_received s ev s2 hev
          rw [okSum_cons]
          omega

theorem rxLoop_nostop_reaches (nsamps : Nat) :
    ∀ (stops : List Bool) (events : List RxEvent) (s : RxState) (r : Nat),
      rxLoop nsamps stops events s = some (.finished r) →
      (∀ b ∈ stops, b = false) → nsamps ≤ r := by
  intro stops
  induction stops with
  | nil => intro events s r h _; simp [rxLoop] at h
  | cons stop srest ih =>
    intro events s r h hfalse
    have hstop : stop = false := hfalse stop (List.mem_cons_self _ _)
    subst hstop
    simp only [rxLoop] at h
    by_cases hlt : s.num_samps_received < nsamps
    · rw [if_neg (by simp [hlt])] at h
      match events with
      | [] => simp at h
      | ev :: erest =>
        have h2 : (match rxIterate s ev with
            | RxStep.threw => some RxOutcome.threw
            | RxStep.cont s2 => rxLoop nsamps srest erest s2)
              = some (RxOutcome.finished r) := h
        cases hev : rxIterate s ev with
        | threw => rw [hev] at h2; simp at h2
        | cont s2 =>
          rw [hev] at h2
          exact ih erest s2 r h2 (fun b hb => hfalse b (List.mem_cons_of_mem _ hb))
    · rw [if_pos (by simp [hlt])] at h
      have : s.num_samps_received = r := by simpa using h
      omega

theorem shmFind_remove_self (st : ShmState) (n : String) :
    shmFind (shmRemove st n) n = none := by
  induction st with
  | nil => rfl
  | cons seg t ih =>
    by_cases h : seg.name = n
    · simpa [shmRemove, shmFind, List.filter_cons, bne_iff_ne, h] using ih
    · simpa [shmRemove, shmFind, List.filter_cons, List.find?_cons, bne_iff_ne, h] using ih

theorem shmFind_remove_other (st : ShmState) (n m : String) (hm : m ≠ n) :
    shmFind (shmRemove st n) m = shmFind st m := by
  induction st with
  | nil => rfl
  | cons seg t ih =>
    by_cases h : seg.name = n
    · have hsm : ¬ seg.name = m := fun hc => hm (by rw [← hc]; exact h)
      simpa [shmRemove, shmFind, List.filter_cons, List.find?_cons, bne_iff_ne, h, hsm,
        Ne.symm hm] using ih
    · by_cases hsm : seg.name = m
      · simp [shmRemove, shmFind, List.filter_cons, List.find?_cons, bne_iff_ne, h, hsm, hm]
      · simpa [shmRemove, shmFind, List.filter_cons, List.find?_cons, bne_iff_ne, h, hsm] using ih

theorem shmFind_cons_ne (seg : ShmSegment) (l : ShmState) (m : String)
    (h : seg.name ≠ m) : shmFind (seg :: l) m = shmFind l m := by
  simp [shmFind, List.find?_cons, h]

theorem shmFind_cons_self (seg : ShmSegment) (l : ShmState) :
    shmFind (seg :: l) seg.name = some seg := by
  simp [shmFind, List.find?_cons]

theorem shmRemove_idem (st : ShmState) (n : String) :
    shmRemove (shmRemove st n) n = shmRemove st n := by
  induction st with
  | nil => rfl
  | cons seg t ih =>
    by_cases h : seg.name = n
    · simpa [shmRemove, List.filter_cons, bne_iff_ne, h] using ih
    · simp only [shmRemove, List.filter_cons, bne_iff_ne, h] at ih ⊢
      simp [ih, h]

/-! ### Claim theorems C3-C10 -/

/-- C3: whenever the transmit loop refills (previous chunk fully sent, not at
end of file), the number of valid samples placed in the shared chunk equals
the minimum of the per-channel read counts (each read count being
`min spb remaining`), so no channel ever transmits more samples than another
has available; and if that minimum is zero the iteration leaves the transmit
loop (end-of-stream `break`, workers.cpp:80-88). -/
theorem C3_refill_takes_min_and_zero_ends (spb send_ret : Nat) (s : TxState)
    (hrefill : s.buf_sent_samps = s.buf_valid_samps) (heof : s.eof = false)
    (hne : s.files ≠ []) :
    (txIterState (txIterate spb false send_ret s)).buf_valid_samps
        = refillValid (s.files.map (fun f => min spb f.length)) ∧
    refillValid (s.files.map (fun f => min spb f.length))
        ∈ s.files.map (fun f => min spb f.length) ∧
    (∀ r ∈ s.files.map (fun f => min spb f.length),
        refillValid (s.files.map (fun f => min spb f.length)) ≤ r) ∧
    (refillValid (s.files.map (fun f => min spb f.length)) = 0 →
      ∃ s2, txIterate spb false send_ret s = .done s2) := by
  have hne2 : s.files.map (fun f => min spb f.length) ≠ [] := by
    simpa using hne
  obtain ⟨hmem, hle⟩ := refillValid_spec _ hne2
  have hreads : (txRefill spb s.files s.buffs).buf_valid_samps
      = refillValid (s.files.map (fun f => min spb f.length)) := by
    simp [txRefill, List.map_map, Function.comp_def, List.length_take]
  refine ⟨?_, hmem, hle, ?_⟩
  · simp only [txIterate, Bool.false_eq_true, if_false, hrefill, beq_self_eq_true, heof,
      Bool.not_false, Bool.and_self, if_true]
    split
    · simp [txIterState, hreads]
    · split
      · simp [txIterState, hreads]
      · split
        · simp [txIterState, hreads]
        · simp [txIterState, hreads]
  · intro hv0
    refine ⟨{ s with
              files := (txRefill spb s.files s.buffs).files,
              buffs := (txRefill spb s.files s.buffs).buffs,
              buf_valid_samps := 0, buf_sent_samps := 0, eof := true }, ?_⟩
    simp only [txIterate, Bool.false_eq_true, if_false, hrefill, beq_self_eq_true, heof,
      Bool.not_false, Bool.and_self, if_true, hreads, hv0, beq_self_eq_true, Bool.and_self]

/-- C3 witness: a 2-channel refill with remaining file lengths 3 and 2 and
chunk size 4 reads `min 4 3 = 3` and `min 4 2 = 2` samples and keeps
`min 3 2 = 2` valid samples. -/
theorem C3_refill_takes_min_and_zero_ends_witness :
    (txInit 4 [[1, 2, 3], [9, 9]]).buf_sent_samps
        = (txInit 4 [[1, 2, 3], [9, 9]]).buf_valid_samps ∧
    (txInit 4 [[1, 2, 3], [9, 9]]).eof = false ∧
    (txInit 4 [[1, 2, 3], [9, 9]]).files ≠ [] ∧
    ((txIterState (txIterate 4 false 1 (txInit 4 [[1, 2, 3], [9, 9]]))).buf_valid_samps
        = refillValid ((txInit 4 [[1, 2, 3], [9, 9]]).files.map (fun f => min 4 f.length)) ∧
      refillValid ((txInit 4 [[1, 2, 3], [9, 9]]).files.map (fun f => min 4 f.length))
        ∈ (txInit 4 [[1, 2, 3], [9, 9]]).files.map (fun f => min 4 f.length) ∧
      (∀ r ∈ (txInit 4 [[1, 2, 3], [9, 9]]).files.map (fun f => min 4 f.length),
        refillValid ((txInit 4 [[1, 2, 3], [9, 9]]).files.map (fun f => min 4 f.length)) ≤ r) ∧
      (refillValid ((txInit 4 [[1, 2, 3], [9, 9]]).files.map (fun f => min 4 f.length)) = 0 →
        ∃ s2, txIterate 4 false 1 (txInit 4 [[1, 2, 3], [9, 9]]) = .done s2)) :=
  ⟨rfl, rfl, by decide,
   C3_refill_takes_min_and_zero_ends 4 1 (txInit 4 [[1, 2, 3], [9, 9]]) rfl rfl (by decide)⟩

/-- C4: for every completed run of the buffer-backed reception loop under the
`STREAM_MODE_NUM_SAMPS_AND_DONE` hardware contract (total delivery at most
the commanded `nsamps`), the received count is at most the requested count;
it equals the requested count when the stop flag was never set during the
call; and the returned per-channel buffers are resized to exactly the
captured count. -/
theorem C4_rx_count_bounds (num_rx_ch : Nat) (cfg : UsrpConfig) (stops : List Bool)
    (events : List RxEvent) (r : Nat)
    (hdeliver : okSum events ≤ cfg.nsamps)
    (hrun : rxLoop cfg.nsamps stops events rxInit = some (.finished r)) :
    r ≤ cfg.nsamps ∧
    ((∀ b ∈ stops, b = false) → r = cfg.nsamps) ∧
    ∃ bufs, ReceiveToBuffer num_rx_ch cfg stops events = some (.ok bufs) ∧
      bufs.length = num_rx_ch ∧ ∀ b ∈ bufs, b.length = r := by
  have h1 := rxLoop_received_le cfg.nsamps stops events rxInit r hrun
  have hle : r ≤ cfg.nsamps := by
    simp only [rxInit] at h1
    omega
  refine ⟨hle, ?_, ?_⟩
  · intro hfalse
    have h2 := rxLoop_nostop_reaches cfg.nsamps stops events rxInit r hrun hfalse
    omega
  · refine ⟨(List.replicate num_rx_ch (List.replicate cfg.nsamps (0 : Sample))).map
        (cppResize r), ?_, by simp, ?_⟩
    · simp [ReceiveToBuffer, hrun]
    · intro b hb
      obtain ⟨x, _, rfl⟩ := List.mem_map.mp hb
      exact cppResize_length r x

/-- C4 witness: requesting 3 samples with the hardware supplying 2 then 1 and
the stop flag never set returns exactly 3 samples in buffers of length 3. -/
theorem C4_rx_count_bounds_witness :
    okSum [RxEvent.ok 2, RxEvent.ok 1] ≤ configNsamps3.nsamps ∧
    rxLoop configNsamps3.nsamps [false, false, false] [RxEvent.ok 2, RxEvent.ok 1] rxInit
      = some (.finished 3) ∧
    (3 ≤ configNsamps3.nsamps ∧
      ((∀ b ∈ [false, false, false], b = false) → 3 = configNsamps3.nsamps) ∧
      ∃ bufs, ReceiveToBuffer 1 configNsamps3 [false, false, false] [RxEvent.ok 2, RxEvent.ok 1]
          = some (.ok bufs) ∧ bufs.length = 1 ∧ ∀ b ∈ bufs, b.length = 3) :=
  ⟨by decide, by decide,
   C4_rx_count_bounds 1 configNsamps3 [false, false, false] [RxEvent.ok 2, RxEvent.ok 1] 3
     (by decide) (by decide)⟩

/-- C5 counterexample: against a device whose `get_time_last_pps` value never
changes, the PPS wait of `ApplyConfiguration` never terminates — it has no
iteration bound, no timeout and no error path, contradicting the claim that
it is bounded by a hard timeout raising a TimingError. -/
theorem C5_counterexample_pps_wait_diverges : ppsWaitDiverges constPps := by
  intro fuel
  exact ppsWaitAux_const_none 0 fuel 1

/-- C5 amended: the PPS wait polls `get_time_last_pps` at fixed 100 ms
intervals with no timeout bound and raises no error; it terminates exactly
when some poll returns a value different from the initial read (within as
many polls as that takes), and otherwise polls forever. -/
theorem C5_amended_pps_wait_terminates_on_edge (pps : Nat → Int) (k : Nat)
    (hk : 1 ≤ k) (h : pps k ≠ pps 0) :
    ∃ j, 1 ≤ j ∧ j ≤ k ∧ ppsWait pps k = some j := by
  have := ppsWaitAux_terminates k pps (pps 0) 1 k hk (by omega) h
  simpa [ppsWait] using this

/-- C5 amended witness: a device that reports a new edge at the first guard
poll makes the wait terminate. -/
theorem C5_amended_pps_wait_terminates_on_edge_witness :
    1 ≤ 1 ∧ ppsEdgeAt1 1 ≠ ppsEdgeAt1 0 ∧
    ∃ j, 1 ≤ j ∧ j ≤ 1 ∧ ppsWait ppsEdgeAt1 1 = some j :=
  ⟨le_refl 1, by decide, C5_amended_pps_wait_terminates_on_edge ppsEdgeAt1 1 (le_refl 1)
    (by decide)⟩

/-- C6 counterexample: an EXECUTE against a 12-byte input segment with one TX
channel — 12 is not divisible by 1 × sizeof(complexf) = 8 — is answered with
SUCCESS, not ERROR: server.cpp:145 computes `samps_per_ch = 12 / 8 = 1` by
truncating integer division and performs no divisibility check. -/
theorem C6_counterexample_nondivisible_size_not_error :
    ¬ (1 * sizeofComplexf ∣ 12) ∧
    sampsPerCh segC6.byte_size 1 = 1 ∧
    (handleRequest fileEnvAll800 1 1 ⟨.EXECUTE, configC1, "client_in"⟩ [segC6]
        [[1, 2]]).2.status = .SUCCESS :=
  ⟨by decide, rfl, by decide⟩

/-- C6 amended: samples-per-channel is computed by truncating integer
division of the segment byte size by (channel count × sample width); there
is no exactness check: every channel receives exactly the truncated count
and the remainder bytes (`size mod (channels × 8)`) are silently ignored,
with exactness holding precisely when the size is divisible. -/
theorem C6_amended_truncating_division (region_size num_tx_ch : Nat)
    (region : List Sample) (hch : 0 < num_tx_ch)
    (hlen : region.length = region_size / sizeofComplexf) :
    num_tx_ch * sizeofComplexf * sampsPerCh region_size num_tx_ch
        + region_size % (num_tx_ch * sizeofComplexf) = region_size ∧
    ((num_tx_ch * sizeofComplexf) ∣ region_size ↔
      region_size % (num_tx_ch * sizeofComplexf) = 0) ∧
    ∀ l ∈ splitTxRegion region num_tx_ch region_size,
      l.length = sampsPerCh region_size num_tx_ch := by
  refine ⟨Nat.div_add_mod _ _, ?_, ?_⟩
  · exact Nat.dvd_iff_mod_eq_zero
  · intro l hl
    simp only [splitTxRegion, List.mem_map, List.mem_range] at hl
    obtain ⟨i, hi, rfl⟩ := hl
    have hdd : region_size / sizeofComplexf / num_tx_ch = sampsPerCh region_size num_tx_ch := by
      show _ = region_size / (num_tx_ch * sizeofComplexf)
      rw [Nat.div_div_eq_div_mul, Nat.mul_comm]
    have hmul : num_tx_ch * sampsPerCh region_size num_tx_ch ≤ region.length := by
      rw [hlen, ← hdd]
      calc num_tx_ch * (region_size / sizeofComplexf / num_tx_ch)
          = (region_size / sizeofComplexf / num_tx_ch) * num_tx_ch := Nat.mul_comm _ _
        _ ≤ region_size / sizeofComplexf := Nat.div_mul_le_self _ _
    have hi1 : i + 1 ≤ num_tx_ch := hi
    have hstep : (i + 1) * sampsPerCh region_size num_tx_ch
        ≤ num_tx_ch * sampsPerCh region_size num_tx_ch :=
      Nat.mul_le_mul_right _ hi1
    have hexp : (i + 1) * sampsPerCh region_size num_tx_ch
        = i * sampsPerCh region_size num_tx_ch + sampsPerCh region_size num_tx_ch := by
      ring
    simp only [List.length_take, List.length_drop]
    omega

/-- C6 amended witness: the 12-byte, 1-channel segment yields a truncated
count of 1 sample per channel with 4 remainder bytes ignored. -/
theorem C6_amended_truncating_division_witness :
    0 < 1 ∧ (segC6.content.length = segC6.byte_size / sizeofComplexf) ∧
    (1 * sizeofComplexf * sampsPerCh segC6.byte_size 1
        + segC6.byte_size % (1 * sizeofComplexf) = segC6.byte_size ∧
      ((1 * sizeofComplexf) ∣ segC6.byte_size ↔
        segC6.byte_size % (1 * sizeofComplexf) = 0) ∧
      ∀ l ∈ splitTxRegion segC6.content 1 segC6.byte_size,
        l.length = sampsPerCh segC6.byte_size 1) :=
  ⟨by decide, by decide,
   C6_amended_truncating_division segC6.byte_size 1 segC6.content (by decide) (by decide)⟩

/-- C7: with the `nsamps = 0` sentinel — documented at usrp_transceiver.h:14
as "0 means until TX complete" — the buffer-backed reception loop treats 0 as
a literal target: its guard `num_samps_received < nsamps` is false at once,
so it returns immediately with zero samples and empty per-channel buffers,
consuming no `recv` result; only the txrx_samples_from_to_file.cpp
near-duplicate derives the RX target from the TX data (800 bytes → 100
samples). -/
theorem C7_nsamps0_returns_immediately :
    rxLoop configNsamps0.nsamps [false] [RxEvent.ok 100] rxInit = some (.finished 0) ∧
    ReceiveToBuffer 1 configNsamps0 [false] [RxEvent.ok 100] = some (.ok [[]]) ∧
    numsToRecvFromTxFile 800 = 100 :=
  ⟨rfl, rfl, rfl⟩

/-- C8 counterexample: a first `recv` call that ends in a timeout DOES
shorten the per-call timeout: the `first_packet` check
(usrp_transceiver.cpp:357-360, workers.cpp:190-193) runs before the error
code is examined, so after a first-call timeout the timeout is 0.1 s, not
the 5 s the claim requires it to remain. -/
theorem C8_counterexample_first_timeout_shortens :
    rxInit.timeout = 5 ∧
    rxIterate rxInit .tmo
      = .cont { first_packet := false, timeout := 1/10, num_samps_received := 0 } ∧
    ((1 : Rat)/10 ≠ 5) :=
  ⟨rfl, rfl, by norm_num⟩

/-- C8 amended: the per-call timeout is shortened from 5 s to 0.1 s after the
first `recv` call returns, whatever its outcome — timeout, overflow, success
or fatal error (the fatal case throws instead of continuing). -/
theorem C8_amended_timeout_shortened_after_first_call (s : RxState) (ev : RxEvent)
    (h : s.first_packet = true) :
    rxIterate s ev = .threw ∨
    ∃ s2, rxIterate s ev = .cont s2 ∧ s2.timeout = 1/10 ∧ s2.first_packet = false := by
  cases ev with
  | fatal =>
    left
    simp [rxIterate]
  | tmo =>
    right
    exact ⟨{ s with timeout := 1/10, first_packet := false }, by simp [rxIterate, h], rfl, rfl⟩
  | ovf =>
    right
    exact ⟨{ s with timeout := 1/10, first_packet := false }, by simp [rxIterate, h], rfl, rfl⟩
  | ok n =>
    right
    exact ⟨{ s with
             timeout := 1/10
             first_packet := false
             num_samps_received := s.num_samps_received + n },
      by simp [rxIterate, h], rfl, rfl⟩

/-- C8 amended witness: a first-call timeout leaves the state with the
shortened 0.1 s timeout. -/
theorem C8_amended_timeout_shortened_after_first_call_witness :
    rxInit.first_packet = true ∧
    (rxIterate rxInit .tmo = .threw ∨
      ∃ s2, rxIterate rxInit .tmo = .cont s2 ∧ s2.timeout = 1/10 ∧ s2.first_packet = false) :=
  ⟨rfl, C8_amended_timeout_shortened_after_first_call rxInit .tmo rfl⟩

/-- C9: the RELEASE handler (server.cpp:188-190) only calls
`shared_memory_object::remove`, which returns false rather than throwing
when the segment is absent, and replies RELEASED unconditionally: issuing
RELEASE twice — the second time with no output segment present — yields
RELEASED both times, leaves the segment absent and does not disturb the
state further. -/
theorem C9_release_idempotent (env : FileEnv) (total_tx total_rx : Nat) (req : Request)
    (st : ShmState) (rx_buffs : List (List Sample)) (hcmd : req.cmd = .RELEASE) :
    (handleRequest env total_tx total_rx req st rx_buffs).2.status = .RELEASED ∧
    shmFind (handleRequest env total_tx total_rx req st rx_buffs).1 rxShmNameConst = none ∧
    (handleRequest env total_tx total_rx req
        (handleRequest env total_tx total_rx req st rx_buffs).1 rx_buffs).2.status
      = .RELEASED ∧
    (handleRequest env total_tx total_rx req
        (handleRequest env total_tx total_rx req st rx_buffs).1 rx_buffs).1
      = (handleRequest env total_tx total_rx req st rx_buffs).1 := by
  simp only [handleRequest, hcmd]
  exact ⟨trivial, shmFind_remove_self st rxShmNameConst, trivial,
    shmRemove_idem st rxShmNameConst⟩

/-- C9 witness: two consecutive RELEASE requests against a state holding only
a client segment both return RELEASED. -/
theorem C9_release_idempotent_witness :
    (⟨Command.RELEASE, configC1, "x"⟩ : Request).cmd = Command.RELEASE ∧
    ((handleRequest fileEnvAll800 1 1 ⟨Command.RELEASE, configC1, "x"⟩ [segC6] []).2.status
        = .RELEASED ∧
      shmFind (handleRequest fileEnvAll800 1 1 ⟨Command.RELEASE, configC1, "x"⟩ [segC6] []).1
          rxShmNameConst = none ∧
      (handleRequest fileEnvAll800 1 1 ⟨Command.RELEASE, configC1, "x"⟩
          (handleRequest fileEnvAll800 1 1 ⟨Command.RELEASE, configC1, "x"⟩ [segC6] []).1
          []).2.status = .RELEASED ∧
      (handleRequest fileEnvAll800 1 1 ⟨Command.RELEASE, configC1, "x"⟩
          (handleRequest fileEnvAll800 1 1 ⟨Command.RELEASE, configC1, "x"⟩ [segC6] []).1
          []).1
        = (handleRequest fileEnvAll800 1 1 ⟨Command.RELEASE, configC1, "x"⟩ [segC6] []).1) :=
  ⟨rfl, C9_release_idempotent fileEnvAll800 1 1 ⟨Command.RELEASE, configC1, "x"⟩ [segC6] [] rfl⟩

/-- C10: the EXECUTE handler's result does not depend on the client-supplied
input transport name beyond whether a segment of that name exists; every
SUCCESS response names the fixed constant "usrp_rx_shm"; on SUCCESS the
state holds at that constant name exactly the freshly written segment
(removing whatever was there before, so a second EXECUTE invalidates the
previous result) and every other segment is untouched. -/
theorem C10_output_name_fixed (env : FileEnv) (total_tx total_rx : Nat) (cfg : UsrpConfig)
    (n1 n2 : String) (st : ShmState) (rx_buffs : List (List Sample))
    (hsame : (shmFind st n1).isSome = (shmFind st n2).isSome) :
    handleRequest env total_tx total_rx ⟨.EXECUTE, cfg, n1⟩ st rx_buffs
      = handleRequest env total_tx total_rx ⟨.EXECUTE, cfg, n2⟩ st rx_buffs ∧
    ((handleRequest env total_tx total_rx ⟨.EXECUTE, cfg, n1⟩ st rx_buffs).2.status
        = .SUCCESS →
      (handleRequest env total_tx total_rx ⟨.EXECUTE, cfg, n1⟩ st rx_buffs).2.rx_shm_name
        = rxShmNameConst ∧
      shmFind (handleRequest env total_tx total_rx ⟨.EXECUTE, cfg, n1⟩ st rx_buffs).1
          rxShmNameConst
        = some { name := rxShmNameConst,
                 byte_size := rx_buffs.length * (rx_buffs.headD []).length * sizeofComplexf,
                 content := rx_buffs.flatten } ∧
      ∀ m, m ≠ rxShmNameConst →
        shmFind (handleRequest env total_tx total_rx ⟨.EXECUTE, cfg, n1⟩ st rx_buffs).1 m
          = shmFind st m) := by
  by_cases hval : ValidateConfiguration env total_tx total_rx cfg = true
  · cases hf1 : shmFind st n1 with
    | none =>
      cases hf2 : shmFind st n2 with
      | none =>
        constructor
        · simp [handleRequest, hval, hf1, hf2]
        · intro hsucc
          simp [handleRequest, hval, hf1] at hsucc
      | some seg2 =>
        rw [hf1, hf2] at hsame
        simp at hsame
    | some seg1 =>
      cases hf2 : shmFind st n2 with
      | none =>
        rw [hf1, hf2] at hsame
        simp at hsame
      | some seg2 =>
        have hres : handleRequest env total_tx total_rx ⟨.EXECUTE, cfg, n1⟩ st rx_buffs
            = (({ name := rxShmNameConst,
                  byte_size := rx_buffs.length * (rx_buffs.headD []).length * sizeofComplexf,
                  content := rx_buffs.flatten } : ShmSegment) :: shmRemove st rxShmNameConst,
               { defaultResponse with
                 status := .SUCCESS, rx_shm_name := rxShmNameConst,
                 rx_nsamps_per_ch := (rx_buffs.headD []).length,
                 num_rx_ch := rx_buffs.length }) := by
          simp [handleRequest, hval, hf1]
        constructor
        · simp [handleRequest, hval, hf1, hf2]
        · intro _
          refine ⟨by rw [hres], ?_, ?_⟩
          · rw [hres]
            exact shmFind_cons_self _ _
          · intro m hm
            rw [hres]
            rw [shmFind_cons_ne _ _ m (fun hc => hm hc.symm)]
            exact shmFind_remove_other st rxShmNameConst m hm
  · rw [Bool.not_eq_true] at hval
    constructor
    · simp [handleRequest, hval]
    · intro hsucc
      simp [handleRequest, hval] at hsucc

/-- C10 witness: an EXECUTE on a valid configuration with an existing input
segment succeeds and stores the output under the constant name. -/
theorem C10_output_name_fixed_witness :
    (shmFind [segC6] "client_in").isSome = (shmFind [segC6] "client_in").isSome ∧
    (handleRequest fileEnvAll800 1 1 ⟨.EXECUTE, configC1, "client_in"⟩ [segC6] [[1, 2]]
        = handleRequest fileEnvAll800 1 1 ⟨.EXECUTE, configC1, "client_in"⟩ [segC6] [[1, 2]] ∧
      ((handleRequest fileEnvAll800 1 1 ⟨.EXECUTE, configC1, "client_in"⟩ [segC6]
          [[1, 2]]).2.status = .SUCCESS →
        (handleRequest fileEnvAll800 1 1 ⟨.EXECUTE, configC1, "client_in"⟩ [segC6]
            [[1, 2]]).2.rx_shm_name = rxShmNameConst ∧
        shmFind (handleRequest fileEnvAll800 1 1 ⟨.EXECUTE, configC1, "client_in"⟩ [segC6]
              [[1, 2]]).1 rxShmNameConst
          = some { name := rxShmNameConst,
                   byte_size := [[1, 2]].length * (([[1, 2]] : List (List Sample)).headD []).length
                     * sizeofComplexf,
                   content := ([[1, 2]] : List (List Sample)).flatten } ∧
        ∀ m, m ≠ rxShmNameConst →
          shmFind (handleRequest fileEnvAll800 1 1 ⟨.EXECUTE, configC1, "client_in"⟩ [segC6]
                [[1, 2]]).1 m
            = shmFind [segC6] m)) :=
  ⟨rfl, C10_output_name_fixed fileEnvAll800 1 1 configC1 "client_in" "client_in" [segC6]
    [[1, 2]] rfl⟩

end TxRx
